import Mathlib

/-!
# Verification of the slas linear-algebra core

A shallow embedding, in Lean 4, of the copy-on-write vector storage model,
the backend dispatch mechanism, the native SIMD kernels, and the shape-aware
tensor/matrix indexing layer of the slas library, together with proofs of the
behavioural properties stated in its specification.

Buffers of `LEN` contiguous elements are modelled as total functions
`Nat → α`: the library reads and writes them only through raw pointers with
unchecked indexing, so any total extension beyond `LEN` is a faithful model
of the defined behaviour.  Operations that may panic return `Option`/`Except`,
with `none`/`.error` standing for the panic.
-/

namespace Slas

/-! ## Copy-on-write vectors (src/lib.rs, src/static_vec.rs)

`StaticCowVec<'a, T, LEN>` is a union of an inline owned buffer and a
reference to an external region, plus an `is_owned` tag.  The model keeps the
inline buffer contents in `owned` (junk until the copy-on-write transition)
and receives the contents of the referenced external region as an explicit
`src` argument to every operation, mirroring the aliasing through the
borrowed pointer.  Mutating operations return the updated vector, and the
write-through operation also returns the (necessarily untouched) source
region, so that non-interference is a provable statement. -/

structure StaticCowVec (α : Type) where
  /-- Contents of the inline buffer (the union's `owned` field). -/
  owned : Nat → α
  /-- The `is_owned` tag. -/
  is_owned : Bool

/-- Embeds `impl From<&[T; LEN]> for StaticCowVec`: borrow an external region
(zero copy).  `junk` is the arbitrary content of the inactive inline
buffer of the union. -/
def cow_from_ref {α : Type} (junk : Nat → α) : StaticCowVec α :=
  { owned := junk, is_owned := false }

/-- Embeds `StaticCowVec::is_owned`. -/
def cow_is_owned {α : Type} (v : StaticCowVec α) : Bool :=
  v.is_owned

/-- Embeds `StaticCowVec::is_borrowed`. -/
def cow_is_borrowed {α : Type} (v : StaticCowVec α) : Bool :=
  ! cow_is_owned v

/-- Embeds `impl Deref for StaticCowVec`: read access resolves to the inline buffer
when owned and to the referenced region (`src`) when borrowed.  Takes `&self`:
no state is modified. -/
def cow_deref {α : Type} (v : StaticCowVec α) (src : Nat → α) : Nat → α :=
  if v.is_owned then v.owned else src

/-- Embeds `StaticVec::as_ptr for StaticCowVec`: the buffer reads through the
returned pointer resolve to. -/
def cow_as_ptr {α : Type} (v : StaticCowVec α) (src : Nat → α) : Nat → α :=
  if v.is_owned then v.owned else src

/-- Embeds `impl DerefMut for StaticCowVec`: if owned, return directly; otherwise
set `is_owned`, copy the referenced region into the inline buffer
(`self.data.owned = *self.data.borrowed`), and return the inline buffer. -/
def cow_deref_mut {α : Type} (v : StaticCowVec α) (src : Nat → α) : StaticCowVec α :=
  if v.is_owned then v
  else { owned := src, is_owned := true }

/-- Embeds `StaticVec::mut_moo_ref for StaticCowVec`: delegates to `deref_mut`,
preserving cow behaviour. -/
def cow_mut_moo_ref {α : Type} (v : StaticCowVec α) (src : Nat → α) : StaticCowVec α :=
  cow_deref_mut v src

/-- Embeds `StaticVec::as_mut_ptr for StaticCowVec`: owned case returns the inline
buffer directly, borrowed case goes through `mut_moo_ref` (hence through
`deref_mut`). -/
def cow_as_mut_ptr {α : Type} (v : StaticCowVec α) (src : Nat → α) : StaticCowVec α :=
  if v.is_owned then v else cow_mut_moo_ref v src

/-- A write of `x` at index `i` through the cow vector (`v[i] = x`): Rust
first runs `deref_mut` (the copy-on-write transition), then stores into the
inline buffer.  The second component is the external source region after the
operation: the code never writes through the borrowed pointer. -/
def cow_write {α : Type} (v : StaticCowVec α) (src : Nat → α) (i : Nat) (x : α) :
    StaticCowVec α × (Nat → α) :=
  let v' := cow_deref_mut v src
  ({ v' with owned := Function.update v'.owned i x }, src)

/-- Embeds `StaticCowVec::from_ptr`: `(ptr as *const [T; LEN]).as_ref()` yields
`None` exactly for the null pointer, and `.expect(..)` panics with the given
message in that case; otherwise the region is borrowed via
`From<&[T; LEN]>`.  A raw pointer is modelled as `Option` of the pointed-to
region, `none` being null.  The second component of the result is the region
the borrowed vector reads through. -/
def cow_from_ptr {α : Type} (junk : Nat → α) (p : Option (Nat → α)) :
    Except String (StaticCowVec α × (Nat → α)) :=
  match p with
  | none => .error "Cannot create StaticCowVec from null pointer"
  | some src => .ok (cow_from_ref junk, src)

/-- Embeds `StaticCowVec::from_ptr_unchecked`: dereferences the pointer with no
null check (`&*(ptr as *const [T; LEN])`); defined behaviour only exists for
a valid, non-null pointer, so the model takes the pointed-to region
directly. -/
def cow_from_ptr_unchecked {α : Type} (junk : Nat → α) (src : Nat → α) :
    StaticCowVec α × (Nat → α) :=
  (cow_from_ref junk, src)

/-- C1: reading a Borrowed cow never mutates anything and resolves to the
source; the first mutable access copies the source into the inline buffer
and flips the tag to Owned; after the first write the vector's contents are
the updated copy, independent of any later mutation of the source, and the
source region is never written through the vector. -/
theorem C1_cow_semantics (junk src src' : Nat → Int) (i j : Nat) (x y : Int) :
    -- creation from a reference is Borrowed
    cow_is_borrowed (cow_from_ref junk) = true
    ∧ cow_is_owned (cow_from_ref junk) = false
    -- purely reading access resolves to the source region and is state-free
    ∧ cow_deref (cow_from_ref junk) src = src
    ∧ cow_as_ptr (cow_from_ref junk) src = src
    -- first mutable access: copy all source elements inline, flip to Owned
    ∧ (cow_deref_mut (cow_from_ref junk) src).is_owned = true
    ∧ (cow_deref_mut (cow_from_ref junk) src).owned = src
    ∧ cow_mut_moo_ref (cow_from_ref junk) src = cow_deref_mut (cow_from_ref junk) src
    ∧ cow_as_mut_ptr (cow_from_ref junk) src = cow_deref_mut (cow_from_ref junk) src
    -- a mutable access on an already-Owned vector changes nothing
    ∧ (∀ v : StaticCowVec Int, v.is_owned = true → cow_deref_mut v src = v)
    -- after the first write through the vector:
    ∧ ((cow_write (cow_from_ref junk) src i x).1.is_owned = true
       -- the vector's contents are the frozen copy with the write applied …
       ∧ cow_deref (cow_write (cow_from_ref junk) src i x).1 src
           = Function.update src i x
       -- … and mutating the original source no longer changes them …
       ∧ cow_deref (cow_write (cow_from_ref junk) src i x).1 src'
           = cow_deref (cow_write (cow_from_ref junk) src i x).1 src
       -- … the source was not written through the vector …
       ∧ (cow_write (cow_from_ref junk) src i x).2 = src
       -- … and every later write goes only to the inline buffer, ignoring
       --     and preserving whatever the source now holds
       ∧ (cow_write (cow_write (cow_from_ref junk) src i x).1 src' j y).1.owned
           = Function.update (cow_write (cow_from_ref junk) src i x).1.owned j y
       ∧ (cow_write (cow_write (cow_from_ref junk) src i x).1 src' j y).2 = src') := by
  refine ⟨rfl, rfl, rfl, rfl, rfl, rfl, rfl, rfl, ?_, rfl, rfl, rfl, rfl, ?_, rfl⟩
  · intro v hv
    simp [cow_deref_mut, hv]
  · simp [cow_write, cow_deref_mut, cow_from_ref]

/-- C10: `from_ptr` on the null pointer panics with the exact message
`Cannot create StaticCowVec from null pointer`; on every non-null pointer it
returns a Borrowed cow vector over the pointed-to region, and
`from_ptr_unchecked` is the variant that performs no null check (its result
on a valid pointer coincides with `from_ptr`'s). -/
theorem C10_from_ptr_null_check (junk : Nat → Int) :
    cow_from_ptr junk (none : Option (Nat → Int))
        = .error "Cannot create StaticCowVec from null pointer"
    ∧ (∀ src : Nat → Int,
        cow_from_ptr junk (some src) = .ok (cow_from_ref junk, src)
        ∧ cow_is_borrowed (cow_from_ref junk) = true
        ∧ cow_deref (cow_from_ref junk) src = src
        ∧ cow_from_ptr_unchecked junk src = (cow_from_ref junk, src)) :=
  ⟨rfl, fun _ => ⟨rfl, rfl, rfl, rfl⟩⟩

/-! ## SIMD lane width (src/simd_lanes.rs)

`MAX` is selected by the target's feature flags; `max_for_type` scales it by
the element size relative to `f32` (4 bytes). -/

/-- Embeds `simd_lanes::MAX`: 16 with avx512, else 8 with avx/avx2/fma, else 4 with
the sse family, else 0 ("Will be 0 if SIMD is not available"). -/
def simd_MAX (lanes16 lanes8 lanes4 : Bool) : Nat :=
  if lanes16 then 16 else if lanes8 then 8 else if lanes4 then 4 else 0

/-- Embeds `simd_lanes::max_for_type::<T>() = MAX / (size_of::<T>() / size_of::<f32>())`,
with `size_T` the byte size of the element type. -/
def max_for_type (lanes16 lanes8 lanes4 : Bool) (size_T : Nat) : Nat :=
  simd_MAX lanes16 lanes8 lanes4 / (size_T / 4)

/-- C5 counterexample: on a target with none of the SSE/AVX/AVX512 feature
families (all flags false), the lane width for `f32` (4 bytes) is 0, not at
least 1 as the claim states for every compilation target. -/
theorem C5_counterexample :
    max_for_type false false false 4 = 0
    ∧ ¬ (∀ lanes16 lanes8 lanes4 : Bool, 1 ≤ max_for_type lanes16 lanes8 lanes4 4) := by
  refine ⟨rfl, fun h => ?_⟩
  exact absurd (h false false false) (by decide)

/-- C5 amended: the lane width `W` is at least 1 â so the loop bounds
`LEN / W` and `LEN - (LEN mod W)` of the kernels are well defined, with the
chunked phase ending exactly at `LEN - (LEN mod W)` â precisely when at least
one SIMD feature family is available; on targets with none, `W = 0` (per
`MAX`'s own documentation) rather than degrading to the scalar width 1. -/
theorem C5_amended_lane_width (lanes16 lanes8 lanes4 : Bool)
    (h : lanes16 = true ∨ lanes8 = true ∨ lanes4 = true) :
    1 ≤ max_for_type lanes16 lanes8 lanes4 4
    ∧ 1 ≤ max_for_type lanes16 lanes8 lanes4 8
    ∧ (∀ LEN : Nat, (LEN / max_for_type lanes16 lanes8 lanes4 4)
          * max_for_type lanes16 lanes8 lanes4 4
        = LEN - LEN % max_for_type lanes16 lanes8 lanes4 4) := by
  refine ⟨?_, ?_, fun LEN => ?_⟩
  · cases lanes16 <;> cases lanes8 <;> cases lanes4 <;> revert h <;> decide
  · cases lanes16 <;> cases lanes8 <;> cases lanes4 <;> revert h <;> decide
  · have h1 := Nat.div_add_mod LEN (max_for_type lanes16 lanes8 lanes4 4)
    have h2 : (LEN / max_for_type lanes16 lanes8 lanes4 4)
          * max_for_type lanes16 lanes8 lanes4 4
        = max_for_type lanes16 lanes8 lanes4 4
          * (LEN / max_for_type lanes16 lanes8 lanes4 4) := Nat.mul_comm _ _
    omega

/-- C5 witness: the amended theorem at the SSE target (only `lanes4`). -/
theorem C5_amended_lane_width_witness :
    1 ≤ max_for_type false false true 4
    ∧ 1 ≤ max_for_type false false true 8
    ∧ (∀ LEN : Nat, (LEN / max_for_type false false true 4) * max_for_type false false true 4
        = LEN - LEN % max_for_type false false true 4) :=
  C5_amended_lane_width false false true (Or.inr (Or.inr rfl))

/-! ## Native dot-product kernel (src/backends/rust.rs)

```text
let mut sum = Simd::<T, LANES>::from_array([0.; LANES]);
for n in 0..LEN / LANES {
    sum += Simd(a[n*LANES..]) * Simd(b[n*LANES..])
}
let mut sum = sum.reduce_sum();
for n in LEN - (LEN % LANES)..LEN {
    sum += a[n] * b[n]
}
sum
```

Element arithmetic is modelled over `Int` (exact arithmetic; the library's
own spec tolerates floating-point reordering error, so the reduction order is
irrelevant to the stated Σ contract). -/

/-- Lane `j` of the SIMD accumulator after the first `n` iterations of the
chunked loop: each iteration adds the lane-wise product of chunk `n` of `a`
and `b`. -/
def dotChunks (W : Nat) (a b : Nat → Int) : Nat → Nat → Int
  | 0, _ => 0
  | n + 1, j => dotChunks W a b n j + a (n * W + j) * b (n * W + j)

/-- Embeds `reduce_sum`: horizontal reduction of the `W`-lane accumulator. -/
def laneReduce (W : Nat) (acc : Nat → Int) : Int :=
  (List.range W).foldl (fun s j => s + acc j) 0

/-- Embeds `impl DotProduct for Rust`: chunked phase over `LEN / W` chunks,
horizontal reduction, then the scalar remainder loop over
`LEN - (LEN % W) .. LEN`. -/
def rust_dot (W LEN : Nat) (a b : Nat → Int) : Int :=
  (List.range' (LEN - LEN % W) (LEN % W)).foldl (fun s n => s + a n * b n)
    (laneReduce W (dotChunks W a b (LEN / W)))

/-- Concrete vector `[1, 2, 3, 4]` (padded with 0). -/
def vec1234 : Nat → Int := fun i => ([1, 2, 3, 4] : List Int).getD i 0

/-- Concrete vector `[1, 2, 3, 4, 5]` (padded with 0). -/
def vec12345 : Nat → Int := fun i => ([1, 2, 3, 4, 5] : List Int).getD i 0

theorem dotChunks_eq (W : Nat) (a b : Nat → Int) (n j : Nat) :
    dotChunks W a b n j = ∑ m ∈ Finset.range n, a (m * W + j) * b (m * W + j) := by
  induction n with
  | zero => simp [dotChunks]
  | succ n ih => rw [dotChunks, ih, Finset.sum_range_succ]

theorem foldl_add_range (f : Nat → Int) (c : Int) (n : Nat) :
    (List.range n).foldl (fun s j => s + f j) c = c + ∑ j ∈ Finset.range n, f j := by
  induction n with
  | zero => simp
  | succ n ih =>
      rw [List.range_succ, List.foldl_append, ih, Finset.sum_range_succ]
      simp [add_assoc]

theorem foldl_add_range' (f : Nat → Int) (c : Int) (s n : Nat) :
    (List.range' s n).foldl (fun acc i => acc + f i) c = c + ∑ i ∈ Finset.Ico s (s + n), f i := by
  induction n generalizing s c with
  | zero => simp
  | succ n ih =>
      rw [List.range'_succ, List.foldl_cons, ih,
        Finset.sum_eq_sum_Ico_succ_bot (by omega : s < s + (n + 1)),
        show s + (n + 1) = s + 1 + n by omega]
      ring

theorem sum_range_mul_chunks (f : Nat → Int) (W q : Nat) :
    ∑ i ∈ Finset.range (W * q), f i
      = ∑ m ∈ Finset.range q, ∑ j ∈ Finset.range W, f (m * W + j) := by
  induction q with
  | zero => simp
  | succ q ih =>
      rw [Finset.sum_range_succ, ← ih, Nat.mul_succ,
        ← Finset.sum_range_add_sum_Ico f (by omega : W * q ≤ W * q + W),
        Finset.sum_Ico_eq_sum_range, show W * q + W - W * q = W by omega]
      congr 1
      exact Finset.sum_congr rfl fun j _ => by rw [Nat.mul_comm q W]

theorem rust_dot_chunk_phase (W : Nat) (a b : Nat → Int) (L : Nat) :
    laneReduce W (dotChunks W a b (L / W))
      = ∑ i ∈ Finset.range (L - L % W), a i * b i := by
  have hLW : L - L % W = W * (L / W) := by
    have := Nat.div_add_mod L W
    omega
  rw [laneReduce, foldl_add_range, zero_add, hLW, sum_range_mul_chunks, Finset.sum_comm]
  exact Finset.sum_congr rfl fun j _ => dotChunks_eq W a b (L / W) j

theorem rust_dot_eq_sum (W : Nat) (a b : Nat → Int) (L : Nat) :
    rust_dot W L a b = ∑ i ∈ Finset.range L, a i * b i := by
  have hL : L - L % W + L % W = L := by
    have := Nat.mod_le L W
    omega
  rw [rust_dot, foldl_add_range', hL, rust_dot_chunk_phase, Finset.range_eq_Ico]
  exact Finset.sum_Ico_consecutive (fun i => a i * b i) (by omega) (by omega)

/-- C4: for every lane width `W ≥ 1` (any real target), every length and all
vectors, the native backend's dot product is exactly `Σ aᵢ·bᵢ` over
`0..LEN`: the chunked phase accounts exactly for indices
`0..LEN - (LEN mod W)` and the scalar remainder exactly for the final
`LEN mod W` indices, no index read twice or skipped; in particular
`dot([1,2,3,4],[1,2,3,4]) = 30` and `dot([1,2,3,4,5],[1,2,3,4,5]) = 55`. -/
theorem C4_rust_dot_correct (W LEN : Nat) (a b : Nat → Int) (_hW : 1 ≤ W) :
    rust_dot W LEN a b = ∑ i ∈ Finset.range LEN, a i * b i
    ∧ laneReduce W (dotChunks W a b (LEN / W))
        = ∑ i ∈ Finset.range (LEN - LEN % W), a i * b i
    ∧ rust_dot W 4 vec1234 vec1234 = 30
    ∧ rust_dot W 5 vec12345 vec12345 = 55 := by
  refine ⟨rust_dot_eq_sum W a b LEN, rust_dot_chunk_phase W a b LEN, ?_, ?_⟩
  · rw [rust_dot_eq_sum]
    decide
  · rw [rust_dot_eq_sum]
    decide

/-- C4 witness: the theorem applied at the AVX `f32` lane width `W = 8` and
`LEN = 5` (a length not divisible by the SIMD width). -/
theorem C4_rust_dot_correct_witness :
    rust_dot 8 5 vec12345 vec12345 = ∑ i ∈ Finset.range 5, vec12345 i * vec12345 i
    ∧ laneReduce 8 (dotChunks 8 vec12345 vec12345 (5 / 8))
        = ∑ i ∈ Finset.range (5 - 5 % 8), vec12345 i * vec12345 i
    ∧ rust_dot 8 4 vec1234 vec1234 = 30
    ∧ rust_dot 8 5 vec12345 vec12345 = 55 :=
  C4_rust_dot_correct 8 5 vec12345 vec12345 (by decide)

/-! ## Backend dispatch for the unbound dot product
(src/backends.rs `impl_default_ops`, threshold from build.rs) -/

/-- Embeds `config::BLAS_IN_DOT_IF_LEN_GE`: build-time constant generated by
build.rs from `SLAS_BLAS_IN_DOT_IF_LEN_GE`, default value 750. -/
def BLAS_IN_DOT_IF_LEN_GE : Nat := 750

/-- Modelled from the spec: the external BLAS real dot routine
(`cblas_sdot`/`cblas_ddot`, §6/§4.4) returns `Σ aᵢ·bᵢ`; the Library
backend's `DotProduct` impl (src/backends/blas.rs) is a thin delegation to
it. -/
def blas_dot (LEN : Nat) (a b : Nat → Int) : Int :=
  ((List.range LEN).map (fun i => a i * b i)).sum

/-- Embeds `StaticVecUnion::<f32/f64>::dot` (the un-bound convenience method):
`Blas.dot` when `LEN >= BLAS_IN_DOT_IF_LEN_GE`, `Rust.dot` otherwise. -/
def svu_dot (W LEN : Nat) (a b : Nat → Int) : Int :=
  if BLAS_IN_DOT_IF_LEN_GE ≤ LEN then blas_dot LEN a b else rust_dot W LEN a b

/-- Complex scalar over exact integer components (src/num.rs `Complex<T>`). -/
structure Cplx where
  re : Int
  im : Int
  deriving DecidableEq

/-- Complex addition (src/num.rs). -/
def Cplx.add (x y : Cplx) : Cplx :=
  ⟨x.re + y.re, x.im + y.im⟩

/-- Complex multiplication (src/num.rs). -/
def Cplx.mul (x y : Cplx) : Cplx :=
  ⟨x.re * y.re - x.im * y.im, x.re * y.im + x.im * y.re⟩

/-- Modelled from the spec: the external BLAS unconjugated complex dot
routine (`cblas_cdotu_sub`/`cblas_zdotu_sub`, §6/§4.4) returns `Σ aᵢ·bᵢ`
with complex multiplication; the Library backend's complex `DotProduct`
impl (src/backends/blas.rs) delegates to it. -/
def blas_dotu (LEN : Nat) (a b : Nat → Cplx) : Cplx :=
  ((List.range LEN).map (fun i => Cplx.mul (a i) (b i))).foldl Cplx.add ⟨0, 0⟩

/-- Embeds `StaticVecUnion::<Complex<f32/f64>>::dot`: always `Blas.dot` ("There is
no rust backend for complex dot products at the moment"). -/
def svu_dot_complex (LEN : Nat) (a b : Nat → Cplx) : Cplx :=
  blas_dotu LEN a b

/-- C3: with no explicitly bound backend, the real dot product resolves to
the Library (Blas) backend exactly when `LEN ≥ BLAS_IN_DOT_IF_LEN_GE`
(whose default is 750) and to the Native (Rust) backend otherwise, while the
complex dot product resolves to the Library backend for every length. -/
theorem C3_dot_dispatch (W LEN : Nat) (a b : Nat → Int) (ca cb : Nat → Cplx) :
    (BLAS_IN_DOT_IF_LEN_GE ≤ LEN → svu_dot W LEN a b = blas_dot LEN a b)
    ∧ (LEN < BLAS_IN_DOT_IF_LEN_GE → svu_dot W LEN a b = rust_dot W LEN a b)
    ∧ svu_dot_complex LEN ca cb = blas_dotu LEN ca cb
    ∧ BLAS_IN_DOT_IF_LEN_GE = 750 := by
  refine ⟨fun h => ?_, fun h => ?_, rfl, rfl⟩
  · rw [svu_dot, if_pos h]
  · rw [svu_dot, if_neg (by omega)]

/-- C3 witness: the dispatch at the default threshold boundary — length 750
goes to Blas, length 749 goes to Rust — for the lane width `W = 8`. -/
theorem C3_dot_dispatch_witness :
    (svu_dot 8 750 vec1234 vec1234 = blas_dot 750 vec1234 vec1234)
    ∧ (svu_dot 8 749 vec1234 vec1234 = rust_dot 8 749 vec1234 vec1234) :=
  ⟨(C3_dot_dispatch 8 750 vec1234 vec1234 (fun _ => ⟨0, 0⟩) (fun _ => ⟨0, 0⟩)).1
      (by decide),
   (C3_dot_dispatch 8 749 vec1234 vec1234 (fun _ => ⟨0, 0⟩) (fun _ => ⟨0, 0⟩)).2.1
      (by decide)⟩

/-! ## Shapes, tensors and matrices (src/tensor.rs)

The rank-2 `Shape` realizations used by the matrix layer report
`axis_len(0)` (width) and `axis_len(1)` (height); `MatrixShape<M, K>` maps
to `axis_len(0) = K`, `axis_len(1) = M`.  The type-level `IS_TRANS` const
generic is modelled as a boolean field (the spec's own design note).  The
backing vector is the usual total function. -/

structure Shape2 where
  /-- Embeds `axis_len(0)`, the width. -/
  a0 : Nat
  /-- Embeds `axis_len(1)`, the height. -/
  a1 : Nat
  deriving DecidableEq

/-- Embeds `Shape<2>::axis_len`.  An axis index above 1 panics in the source and is
never produced by the modelled operations. -/
def Shape2.axis_len (sh : Shape2) : Nat → Nat
  | 0 => sh.a0
  | _ => sh.a1

/-- Embeds `Shape::volume`: `(0..NDIM).map(axis_len).product()`. -/
def Shape2.volume (sh : Shape2) : Nat :=
  ((List.range 2).map sh.axis_len).prod

/-- Embeds `MatrixShape::<M, K>` as a `Shape<2>`. -/
def MatrixShape (M K : Nat) : Shape2 :=
  ⟨K, M⟩

/-- A rank-2 `Tensor` (backing vector plus shape). -/
structure Tensor2 (α : Type) where
  data : Nat → α
  shape : Shape2

/-- Embeds `Matrix<T, U, B, LEN, IS_TRANS, S>`: a rank-2 tensor wrapper plus the
lazily-tracked transpose flag. -/
structure Matrix (α : Type) where
  tensor : Tensor2 α
  is_trans : Bool

/-- Embeds `tensor_index` loop body (src/tensor.rs): running over the axes it
asserts `o[n] < s[n]`, accumulates `sum += o[n] * product` and
`product *= s[n]`; `rem` is the number of axes still to process. -/
def tensor_index_go (s o : Nat → Nat) : Nat → Nat → Nat → Nat → Option Nat
  | 0, _, sum, _ => some sum
  | rem + 1, n, sum, product =>
      if o n < s n then tensor_index_go s o rem (n + 1) (sum + o n * product) (product * s n)
      else none

/-- Embeds `tensor_index(s, o)` over `NDIM` axes; `none` is the out-of-bounds
panic. -/
def tensor_index (NDIM : Nat) (s o : Nat → Nat) : Option Nat :=
  tensor_index_go s o NDIM 0 0 1

/-- Embeds `Matrix::rows`: honors `IS_TRANS`. -/
def Matrix.rows {α : Type} (m : Matrix α) : Nat :=
  if m.is_trans then m.tensor.shape.axis_len 0 else m.tensor.shape.axis_len 1

/-- Embeds `Matrix::columns`: honors `IS_TRANS`. -/
def Matrix.columns {α : Type} (m : Matrix α) : Nat :=
  if m.is_trans then m.tensor.shape.axis_len 1 else m.tensor.shape.axis_len 0

/-- Embeds `Matrix::transpose`: rewraps the same tensor with `IS_TRANS` negated. -/
def Matrix.transpose {α : Type} (m : Matrix α) : Matrix α :=
  { m with is_trans := ! m.is_trans }

/-- Embeds `impl Index<(usize, usize)> for Matrix`: the index pair is reordered to
`[i.0, i.1]` when transposed and `[i.1, i.0]` otherwise, then translated by
`tensor_index` and read without bounds checking. -/
def Matrix.get {α : Type} (m : Matrix α) (r c : Nat) : Option α :=
  let o : Nat → Nat :=
    if m.is_trans then (fun n => if n = 0 then r else c)
    else (fun n => if n = 0 then c else r)
  (tensor_index 2 m.tensor.shape.axis_len o).map m.tensor.data

/-- Embeds `impl Deref for Matrix`: panics if `IS_TRANS`, otherwise exposes the
wrapped tensor. -/
def Matrix.deref {α : Type} (m : Matrix α) : Option (Tensor2 α) :=
  if m.is_trans then none else some m.tensor

/-- C7: `transpose()` only toggles the transpose flag, keeping the same
underlying storage and shape (no element is read or written); double
transposition is the identity, so it has the same logical element at every
index, and the lazily transposed view's element at `(r, c)` is the
untransposed view's element at `(c, r)`. -/
theorem C7_lazy_transpose {α : Type} (m : Matrix α) :
    m.transpose.transpose = m
    ∧ m.transpose.tensor = m.tensor
    ∧ m.transpose.is_trans = ! m.is_trans
    ∧ (∀ r c : Nat, m.transpose.get r c = m.get c r)
    ∧ (∀ r c : Nat, m.transpose.transpose.get r c = m.get r c) := by
  obtain ⟨t, b⟩ := m
  refine ⟨by simp [Matrix.transpose], rfl, rfl, fun r c => ?_, fun r c => by
    simp [Matrix.transpose]⟩
  cases b <;> rfl

/-- C9: immutably dereferencing a lazily transposed matrix always panics;
with the flag clear it returns the wrapped tensor unchanged and never
panics. -/
theorem C9_deref_trans_panics {α : Type} (m : Matrix α) :
    (m.is_trans = true → m.deref = none)
    ∧ (m.is_trans = false → m.deref = some m.tensor) := by
  constructor <;> intro h <;> simp [Matrix.deref, h]

/-- Concrete vector `[1, 2, 3, 4, 5, 6]` (padded with 0). -/
def vec16 : Nat → Int := fun i => ([1, 2, 3, 4, 5, 6] : List Int).getD i 0

/-- The lazily transposed matrix `moo![f32: 1..=6].matrix::<B, 2, 3>().transpose()`. -/
def mexTrans : Matrix Int :=
  { tensor := { data := vec16, shape := MatrixShape 2 3 }, is_trans := true }

/-- C9 witness: dereferencing the concrete transposed matrix panics. -/
theorem C9_deref_trans_panics_witness :
    mexTrans.deref = none :=
  (C9_deref_trans_panics mexTrans).1 rfl

/-! ## Matrix-multiply entry point (src/tensor.rs `matrix_mul_buffer`) -/

/-- The `(m, n, k, transA, transB)` tuple that `matrix_mul_buffer` passes to
the bound backend's `matrix_mul`. -/
structure GemmArgs where
  m : Nat
  n : Nat
  k : Nat
  a_trans : Bool
  b_trans : Bool

/-- Embeds `Matrix::matrix_mul_buffer` parameter derivation: `m = self.shape.axis_len(1)`,
`k = self.shape.axis_len(0)`, `n = other.shape.axis_len(0)`, with the
`IS_TRANS_1`/`IS_TRANS_2` const generics forwarded as the transpose flags. -/
def matrix_mul_buffer_args {α : Type} (A B : Matrix α) : GemmArgs :=
  { m := A.tensor.shape.axis_len 1
    n := B.tensor.shape.axis_len 0
    k := A.tensor.shape.axis_len 0
    a_trans := A.is_trans
    b_trans := B.is_trans }

/-- The three `debug_assert_eq!` checks of `matrix_mul_buffer`:
`self.shape.volume() == LEN`, `other.shape.volume() == LEN2`,
`m * n == OLEN`. -/
def matrix_mul_buffer_debug_checks {α : Type} (A B : Matrix α) (LEN LEN2 OLEN : Nat) : Bool :=
  (A.tensor.shape.volume == LEN) && (B.tensor.shape.volume == LEN2)
    && ((matrix_mul_buffer_args A B).m * (matrix_mul_buffer_args A B).n == OLEN)

/-- The lazily transposed matrix `moo![f32: 1..=6].matrix::<B, 3, 2>().transpose()`. -/
def mexTransB : Matrix Int :=
  { tensor := { data := vec16, shape := MatrixShape 3 2 }, is_trans := true }

/-- C2, evaluated at the repository's own failing test input
(`tests/src/main.rs::matrix_mul_trans`: `A = 2×3 [1..6]` transposed,
`B = 3×2 [1..6]` transposed, output buffer of `OLEN = 9` elements):
`matrix_mul_buffer` derives `m`, `k`, `n` from the raw shape axis lengths,
ignoring `IS_TRANS`, so they disagree with the flag-honoring
`rows()`/`columns()` — `m = 2` though `rows() = 3`, `k = 3` though
`columns() = 2`, `n = 2` though `other.columns() = 3` — and its own
`debug_assert_eq!(m * n, OLEN)` check fails (`4 ≠ 9`); only the two
transpose flags themselves are forwarded to the backend. -/
theorem C2_matrix_mul_buffer_ignores_trans :
    (matrix_mul_buffer_args mexTrans mexTransB).m = 2
    ∧ mexTrans.rows = 3
    ∧ (matrix_mul_buffer_args mexTrans mexTransB).k = 3
    ∧ mexTrans.columns = 2
    ∧ (matrix_mul_buffer_args mexTrans mexTransB).n = 2
    ∧ mexTransB.columns = 3
    ∧ (matrix_mul_buffer_args mexTrans mexTransB).a_trans = true
    ∧ (matrix_mul_buffer_args mexTrans mexTransB).b_trans = true
    ∧ (matrix_mul_buffer_args mexTrans mexTransB).m
        * (matrix_mul_buffer_args mexTrans mexTransB).n ≠ 9
    ∧ matrix_mul_buffer_debug_checks mexTrans mexTransB 6 6 9 = false := by
  decide

/-! ## Construction-time and indexing-time shape faults
(src/static_vec.rs `impl_reshape`, src/tensor.rs `tensor_index`) -/

/-- A rank-`NDIM` tensor: backing vector plus a runtime shape. -/
structure TensorN (α : Type) where
  data : Nat → α
  shape : Nat → Nat

/-- Embeds `Shape::volume` for a rank-`NDIM` shape. -/
def shape_volume (NDIM : Nat) (s : Nat → Nat) : Nat :=
  ((List.range NDIM).map s).prod

/-- Embeds `StaticVec::reshape`: `assert_eq!(shape.volume(), LEN, ..)`, then wrap
the vector with the shape. -/
def static_vec_reshape {α : Type} (LEN NDIM : Nat) (s : Nat → Nat) (data : Nat → α) :
    Option (TensorN α) :=
  if shape_volume NDIM s = LEN then some ⟨data, s⟩ else none

/-- Embeds `StaticVec::matrix::<B, M, K>`: `assert_eq!(M * K, LEN, ..)`, then wrap
with `MatrixShape::<M, K>` and `IS_TRANS = false`. -/
def static_vec_matrix {α : Type} (LEN M K : Nat) (data : Nat → α) : Option (Matrix α) :=
  if M * K = LEN then some ⟨⟨data, MatrixShape M K⟩, false⟩ else none

theorem tensor_index_go_none_iff (s o : Nat → Nat) :
    ∀ (rem n sum product : Nat),
      tensor_index_go s o rem n sum product = none ↔ ∃ t, t < rem ∧ s (n + t) ≤ o (n + t) := by
  intro rem
  induction rem with
  | zero =>
      intro n sum product
      simp [tensor_index_go]
  | succ rem ih =>
      intro n sum product
      rw [tensor_index_go]
      by_cases h : o n < s n
      · rw [if_pos h, ih]
        constructor
        · rintro ⟨t, ht, hle⟩
          exact ⟨t + 1, by omega, by rw [show n + (t + 1) = n + 1 + t by omega]; exact hle⟩
        · rintro ⟨t, ht, hle⟩
          cases t with
          | zero => exact absurd hle (by simpa using h)
          | succ t => exact ⟨t, by omega, by rw [show n + 1 + t = n + (t + 1) by omega]; exact hle⟩
      · rw [if_neg h]
        constructor
        · intro _
          exact ⟨0, by omega, by simpa using Nat.le_of_not_lt h⟩
        · intro _
          rfl

/-- Embeds `tensor_index` panics exactly when some axis component is out of
range. -/
theorem tensor_index_none_iff (NDIM : Nat) (s o : Nat → Nat) :
    tensor_index NDIM s o = none ↔ ∃ n, n < NDIM ∧ s n ≤ o n := by
  rw [tensor_index, tensor_index_go_none_iff]
  simp

/-- C8: `reshape` (and the `matrix` constructor) panic whenever the target
shape's volume differs from the vector's length, and indexing with any
per-axis component at or above the axis length panics in `tensor_index` —
in particular a row index at or past `rows()` on an untransposed matrix —
rather than silently truncating. -/
theorem C8_shape_faults :
    (∀ (LEN NDIM : Nat) (s : Nat → Nat) (data : Nat → Int),
        shape_volume NDIM s ≠ LEN → static_vec_reshape LEN NDIM s data = none)
    ∧ (∀ (LEN M K : Nat) (data : Nat → Int),
        M * K ≠ LEN → static_vec_matrix LEN M K data = none)
    ∧ (∀ (NDIM : Nat) (s o : Nat → Nat) (n : Nat),
        n < NDIM → s n ≤ o n → tensor_index NDIM s o = none)
    ∧ (∀ (m : Matrix Int) (r c : Nat),
        m.is_trans = false → m.rows ≤ r → m.get r c = none) := by
  refine ⟨fun LEN NDIM s data h => by rw [static_vec_reshape, if_neg h],
    fun LEN M K data h => by rw [static_vec_matrix, if_neg h],
    fun NDIM s o n hn hle => (tensor_index_none_iff NDIM s o).mpr ⟨n, hn, hle⟩,
    fun m r c hm hr => ?_⟩
  simp only [Matrix.rows, hm, Bool.false_eq_true, if_false] at hr
  have hnone : tensor_index 2 m.tensor.shape.axis_len (fun n => if n = 0 then c else r) = none :=
    (tensor_index_none_iff 2 m.tensor.shape.axis_len (fun n => if n = 0 then c else r)).mpr
      ⟨1, by omega, by simpa using hr⟩
  simp [Matrix.get, hm, hnone]

/-- C8 witness: reshaping a length-4 vector to a volume-5 shape panics, a
2×3 matrix constructor on a length-4 vector panics, and indexing the 2×3
matrix `[1..6]` at row 3 panics. -/
theorem C8_shape_faults_witness :
    static_vec_reshape 4 1 (fun _ => 5) (fun _ => (0 : Int)) = none
    ∧ static_vec_matrix 4 2 3 (fun _ => (0 : Int)) = none
    ∧ tensor_index 2 (fun n => if n = 0 then 3 else 2) (fun n => if n = 0 then 0 else 3) = none
    ∧ Matrix.get ⟨⟨vec16, MatrixShape 2 3⟩, false⟩ 3 0 = none :=
  ⟨C8_shape_faults.1 4 1 (fun _ => 5) (fun _ => 0) (by decide),
   C8_shape_faults.2.1 4 2 3 (fun _ => 0) (by decide),
   C8_shape_faults.2.2.1 2 (fun n => if n = 0 then 3 else 2) (fun n => if n = 0 then 0 else 3)
     1 (by decide) (by decide),
   C8_shape_faults.2.2.2 ⟨⟨vec16, MatrixShape 2 3⟩, false⟩ 3 0 rfl (by decide)⟩

/-! ## Native transpose kernel (src/backends/rust.rs) -/

/-- Inner loop of `Rust::transpose` for a fixed `column`: for each
`row < LEN / columns`, `buffer[columns*row + column] = a[LEN/columns*column + row]`. -/
def transInner {α : Type} (LEN columns column : Nat) (a : Nat → α) (buf : Nat → α) : Nat → α :=
  (List.range (LEN / columns)).foldl
    (fun b row => Function.update b (columns * row + column) (a (LEN / columns * column + row)))
    buf

/-- Embeds `impl Transpose for Rust::transpose` (src/backends/rust.rs): the outer
loop over `column`, each running the inner row loop. -/
def rust_transpose {α : Type} (LEN columns : Nat) (a buffer : Nat → α) : Nat → α :=
  (List.range columns).foldl (fun b column => transInner LEN columns column a b) buffer

/-- Embeds `Rust::transpose_inplace`: transpose into a same-size zeroed scratch
buffer, then copy the scratch back over `a`. -/
def rust_transpose_inplace (LEN columns : Nat) (a : Nat → Int) : Nat → Int :=
  rust_transpose LEN columns a (fun _ => 0)

theorem foldl_update_miss {α : Type} (idx : Nat → Nat) (v : Nat → α) (i : Nat) :
    ∀ (n : Nat) (buf : Nat → α), (∀ r, r < n → idx r ≠ i) →
      ((List.range n).foldl (fun b r => Function.update b (idx r) (v r)) buf) i = buf i := by
  intro n
  induction n with
  | zero => intro buf _; rfl
  | succ n ih =>
      intro buf h
      rw [List.range_succ, List.foldl_append, List.foldl_cons, List.foldl_nil,
        Function.update_noteq (fun he => h n (by omega) he.symm)]
      exact ih buf fun r hr => h r (by omega)

theorem foldl_update_hit {α : Type} (idx : Nat → Nat) (v : Nat → α) (r0 : Nat)
    (hinj : ∀ r s, idx r = idx s → r = s) :
    ∀ (n : Nat) (buf : Nat → α), r0 < n →
      ((List.range n).foldl (fun b r => Function.update b (idx r) (v r)) buf) (idx r0) = v r0 := by
  intro n
  induction n with
  | zero => intro buf h; omega
  | succ n ih =>
      intro buf h
      rw [List.range_succ, List.foldl_append, List.foldl_cons, List.foldl_nil]
      by_cases hr : r0 = n
      · subst hr
        rw [Function.update_same]
      · rw [Function.update_noteq (fun he => hr (hinj r0 n he))]
        exact ih buf (by omega)

theorem rust_transpose_outer {α : Type} (LEN columns row col : Nat) (a : Nat → α)
    (hr : row < LEN / columns) (hc0 : 0 < columns) :
    ∀ (N : Nat) (buf : Nat → α), N ≤ columns → col < N →
      ((List.range N).foldl (fun b column => transInner LEN columns column a b) buf)
          (columns * row + col)
        = a (LEN / columns * col + row) := by
  intro N
  induction N with
  | zero => intro buf _ h; omega
  | succ N ih =>
      intro buf hN hcol
      rw [List.range_succ, List.foldl_append, List.foldl_cons, List.foldl_nil]
      by_cases hcN : col = N
      · subst hcN
        rw [transInner]
        exact foldl_update_hit (fun r => columns * r + col)
          (fun r => a (LEN / columns * col + r)) row
          (fun r s h => Nat.eq_of_mul_eq_mul_left hc0 (Nat.add_right_cancel h))
          (LEN / columns) _ hr
      · rw [transInner, foldl_update_miss (fun r => columns * r + N)
          (fun r => a (LEN / columns * N + r)) (columns * row + col) (LEN / columns) _ ?_]
        · exact ih _ (by omega) (by omega)
        · intro r _ he
          have h1 : (columns * r + N) % columns = N := by
            rw [Nat.mul_add_mod]
            exact Nat.mod_eq_of_lt (by omega)
          have h2 : (columns * row + col) % columns = col := by
            rw [Nat.mul_add_mod]
            exact Nat.mod_eq_of_lt (by omega)
          have he2 : columns * r + N = columns * row + col := he
          rw [he2, h2] at h1
          omega

/-- C6 amended: with `rows = LEN / columns`, the kernel writes
`buffer[row*columns + col] = a[col*rows + row]` for every valid
`(row, col)` pair — the mirror image of the claimed assignment — and
`transpose_inplace` leaves `a` equal to exactly that transpose (same
length), via the same-size scratch buffer. -/
theorem C6_amended_transpose (LEN columns row col : Nat) (a buffer : Nat → Int)
    (hr : row < LEN / columns) (hc : col < columns) :
    rust_transpose LEN columns a buffer (columns * row + col)
      = a (LEN / columns * col + row)
    ∧ rust_transpose_inplace LEN columns a (columns * row + col)
      = a (LEN / columns * col + row) :=
  ⟨rust_transpose_outer LEN columns row col a hr (by omega) columns buffer le_rfl hc,
   rust_transpose_outer LEN columns row col a hr (by omega) columns (fun _ => 0) le_rfl hc⟩

/-- The identity vector `[0, 1, 2, ...]`. -/
def idInt : Nat → Int := fun i => (i : Int)

/-- C6 counterexample: for `LEN = 6`, `columns = 3` (so `rows = 2`) and
`a = [0, 1, 2, 3, 4, 5]`, the claimed equation
`buffer[col*rows + row] = a[row*columns + col]` fails at
`(row, col) = (1, 0)`: the kernel leaves `2 = a[2]` at buffer index
`0*2 + 1 = 1`, not `a[1*3 + 0] = 3`. -/
theorem C6_counterexample :
    rust_transpose 6 3 idInt (fun _ => 0) (0 * (6 / 3) + 1) = 2
    ∧ idInt (1 * 3 + 0) = 3
    ∧ ¬ (rust_transpose 6 3 idInt (fun _ => 0) (0 * (6 / 3) + 1) = idInt (1 * 3 + 0)) := by
  decide

/-- C6 witness: the amended theorem at `LEN = 6`, `columns = 3`,
`(row, col) = (1, 0)` over the identity vector. -/
theorem C6_amended_transpose_witness :
    (1 < 6 / 3) ∧ (0 < 3)
    ∧ rust_transpose 6 3 idInt (fun _ => 0) (3 * 1 + 0) = idInt (6 / 3 * 0 + 1)
    ∧ rust_transpose_inplace 6 3 idInt (3 * 1 + 0) = idInt (6 / 3 * 0 + 1) :=
  ⟨by decide, by decide,
   (C6_amended_transpose 6 3 1 0 idInt (fun _ => 0) (by decide) (by decide)).1,
   (C6_amended_transpose 6 3 1 0 idInt (fun _ => 0) (by decide) (by decide)).2⟩

/-- C1 witness: the theorem's inner hypothesis discharged at a concrete
already-Owned vector — a further mutable access leaves it unchanged. -/
theorem C1_cow_semantics_witness :
    cow_deref_mut ⟨idInt, true⟩ (fun _ => (0 : Int)) = ⟨idInt, true⟩ :=
  ((C1_cow_semantics (fun _ => 0) (fun _ => 0) (fun _ => 0) 0 0 0
      0).2.2.2.2.2.2.2.2.1) ⟨idInt, true⟩ rfl

end Slas
